import Mathlib

/-!
# immich-bootstrapper: a verification development of `main.go`

The bootstrap launcher is sequential glue over the process environment, the
filesystem, one HTTP download and one child process.  The embedding below keeps
the control flow of `main`, `getAppDataDir` and `downloadFile` as written and
makes the outside world explicit:

* Go strings are `String`s; the cut set and the prefix used by `main` are
  ASCII, so trimming bytes and trimming characters agree;
* the filesystem is an association list from paths to files plus a list of
  directories;
* every call into the operating system or the network takes its outcome from
  a field of `World` (or of `DownloadScript` for one run of `downloadFile`);
* what the program does is recorded as a list of `Action`s, in program order.
-/

namespace Bootstrapper

/-! ## Strings -/

/-- Go `strings.TrimRight(s, cutset)`: drop the longest suffix of `s` made of
characters of `cutset`. -/
def trimRight (s cutset : String) : String :=
  ⟨s.data.rdropWhile (fun c => cutset.data.contains c)⟩

/-- Go `strings.HasPrefix(s, p)`. -/
def hasPrefix (s p : String) : Bool :=
  p.data.isPrefixOf s.data

/-- Go `strings.Repeat` of a single character. -/
def repeatChar (c : Char) (n : Nat) : String :=
  ⟨List.replicate n c⟩

/-- Whether the last character of `s` is one of `cutset`: what `trimRight s cutset` would eat. -/
def endsIn (s cutset : String) : Bool :=
  match s.data.getLast? with
  | some c => cutset.data.contains c
  | none => false

/-! ## Build-time configuration -/

/-- Initial value of the global `ServerURL` (main.go line 20). -/
def ServerURL : String :=
  "__IMMICH_SERVER_URL_PLACEHOLDER_________________________________________________________________________________________________"

/-- Initial value of the global `SetupToken` (main.go line 21). -/
def SetupToken : String :=
  "__IMMICH_SETUP_TOKEN_PLACEHOLDER_________________________________________________________________________________________________"

/-- Constant `GitHubRepo`. -/
def GitHubRepo : String := "immich-app/immich-importer"

/-- Constant `AppVersion`. -/
def AppVersion : String := "latest"

/-- The width the comment above the placeholders promises. -/
def placeholderWidth : Nat := 128

/-- The characters `main` strips from the right of both strings. -/
def paddingCutset : String := "\x00_ "

/-- The prefix `main` takes as the mark of an unpatched binary. -/
def placeholderPrefix : String := "__IMMICH_"

/-- The two patched globals as `main` finds them at start-up. -/
structure Config where
  ServerURL : String
  SetupToken : String
  deriving Repr, DecidableEq

/-- The binary as built, before any patching. -/
def unpatchedConfig : Config :=
  { ServerURL := ServerURL, SetupToken := SetupToken }

/-! ## Filesystem -/

/-- File contents: a list of byte values. -/
abbrev Bytes := List Nat

/-- A regular file: its bytes and its permission bits. -/
structure File where
  content : Bytes
  mode : Nat
  deriving Repr, DecidableEq

/-- The filesystem state: the directories that exist and the regular files,
keyed by path (the first entry for a path is the file at that path). -/
structure FS where
  dirs : List String
  files : List (String × File)
  deriving Repr, DecidableEq

namespace FS

/-- The regular file at `p`, if any. -/
def lookup (fs : FS) (p : String) : Option File :=
  fs.files.lookup p

/-- Whether `p` is an existing directory. -/
def isDir (fs : FS) (p : String) : Bool :=
  fs.dirs.contains p

/-- Whether anything exists at `p`: `os.Stat(p)` returns a nil error. -/
def present (fs : FS) (p : String) : Bool :=
  (fs.lookup p).isSome || fs.isDir p

/-- Effect of `os.Remove(p)` on regular files: the entry for `p` goes, if there is one. -/
def remove (fs : FS) (p : String) : FS :=
  { fs with files := fs.files.filter (fun e => e.1 != p) }

/-- Create or replace the regular file at `p`. -/
def write (fs : FS) (p : String) (f : File) : FS :=
  { fs with files := (p, f) :: fs.files.filter (fun e => e.1 != p) }

/-- Effect of a successful `os.Rename(old, new)`: the file moves, replacing what was at `new`. -/
def rename (fs : FS) (old new : String) : FS :=
  match fs.lookup old with
  | none => fs
  | some f => (fs.remove old).write new f

end FS

/-! ## The outside world -/

/-- Go package `path/filepath` of the build target, taken as given. -/
structure Filepath where
  Join : List String → String
  Dir : String → String

/-- How `resp.Body` behaves: reads that return data with a nil error, then one
last read that returns `last` together with `io.EOF` (`lastErr = none`) or with
another error. -/
structure Body where
  reads : List Bytes
  last : Bytes
  lastErr : Option String
  deriving Repr, DecidableEq

/-- The final HTTP response of `client.Get`. -/
structure Response where
  statusCode : Nat
  status : String
  contentLength : Int
  body : Body
  deriving Repr, DecidableEq

/-- Outcome of one `multiWriter.Write(buf[:n])`: all written, an error, or
fewer bytes than asked for without an error. -/
inductive WriteOutcome where
  | ok
  | err (msg : String)
  | short
  deriving Repr, DecidableEq

/-- What the operating system and the network do during one call of `downloadFile`. -/
structure DownloadScript where
  /-- the random parts `os.CreateTemp` tries, in order -/
  tempNames : List String
  /-- a failure of the create call itself (permissions, missing directory) -/
  createTempErr : Option String
  /-- how many redirects are answered before the final response -/
  redirects : Nat
  /-- the transport failure or the final response -/
  response : Except String Response
  /-- outcome of the k-th write; writes beyond the list succeed -/
  writes : List WriteOutcome
  /-- failure of `tmpFile.Close()` before the rename -/
  closeErr : Option String
  /-- failure of the first `os.Rename` -/
  renameErr : Option String
  /-- failure of the second `os.Rename` (Windows fallback) -/
  renameErr2 : Option String
  /-- refusal of `os.Remove(destPath)` in the Windows fallback (line 255) -/
  removeErr : Option String
  /-- refusal of the deferred `os.Remove(tmpPath)` (line 179) -/
  cleanupErr : Option String

/-- How the child process ends. -/
inductive ChildOutcome where
  | exited (code : Nat)
  | signaled
  | notStarted (msg : String)
  deriving Repr, DecidableEq

/-- Everything `main` reads from outside the program. -/
structure World where
  /-- `runtime.GOOS` -/
  goos : String
  /-- `runtime.GOARCH` -/
  goarch : String
  /-- result of `os.UserHomeDir()` -/
  home : Except String String
  /-- the process environment, as name and value pairs -/
  env : List (String × String)
  /-- the filesystem at start-up -/
  fs : FS
  /-- failure of `os.MkdirAll` when the directory has to be created -/
  mkdirAllErr : Option String
  /-- behaviour of the download, should one take place -/
  dl : DownloadScript
  /-- failure of `os.Chmod` -/
  chmodErr : Option String
  /-- how the launched importer ends -/
  child : ChildOutcome

/-- Go `os.Getenv`: the value, or the empty string when the variable is not set. -/
def World.getenv (w : World) (name : String) : String :=
  (w.env.lookup name).getD ""

/-- What the program does, in program order. -/
inductive Action where
  | stdout (line : String)
  | stderr (line : String)
  /-- the line `  Progress: <percent>%` -/
  | progress (percent : Int)
  /-- the line `  Downloaded: ... MB (SHA256: ...)`, by the byte count it reports -/
  | downloaded (written : Nat)
  | mkdirAll (path : String)
  | stat (path : String)
  | createTemp (dir : String)
  | httpGet (url : String)
  | writeTemp (path : String) (n : Nat)
  | closeTemp (path : String)
  | remove (path : String)
  | rename (old new : String)
  | chmod (path : String) (mode : Nat)
  | spawn (path : String) (args : List String)
  deriving Repr, DecidableEq

/-- Actions that touch the filesystem. -/
def Action.isFilesystem : Action → Bool
  | .mkdirAll _ | .stat _ | .createTemp _ | .writeTemp _ _ | .closeTemp _
  | .remove _ | .rename _ _ | .chmod _ _ => true
  | _ => false

/-- Actions that touch the network. -/
def Action.isNetwork : Action → Bool
  | .httpGet _ => true
  | _ => false

/-- The launch of a child process. -/
def Action.isSpawn : Action → Bool
  | .spawn _ _ => true
  | _ => false

/-! ## getAppDataDir -/

/-- Function `getAppDataDir` (main.go lines 134-167). -/
def getAppDataDir (fp : Filepath) (w : World) : Except String String :=
  if w.goos == "darwin" then
    match w.home with
    | .error err => .error err
    | .ok home => .ok (fp.Join [home, "Library", "Application Support", "ImmichImporter"])
  else if w.goos == "windows" then
    let appData := w.getenv "APPDATA"
    if appData == "" then
      match w.home with
      | .error err => .error err
      | .ok home => .ok (fp.Join [fp.Join [home, "AppData", "Roaming"], "ImmichImporter"])
    else
      .ok (fp.Join [appData, "ImmichImporter"])
  else
    match w.home with
    | .error err => .error err
    | .ok home =>
      let configDir := w.getenv "XDG_CONFIG_HOME"
      if configDir == "" then
        .ok (fp.Join [fp.Join [home, ".config"], "immich-importer"])
      else
        .ok (fp.Join [configDir, "immich-importer"])

/-! ## downloadFile -/

/-- The errors `downloadFile` returns, one constructor per `return fmt.Errorf(...)`. -/
inductive DownloadError where
  /-- `failed to create temp file: ...` -/
  | createTemp (msg : String)
  /-- `failed to download: ...` -/
  | download (msg : String)
  /-- `download failed with status: ...` -/
  | status (status : String)
  /-- `failed to write: ...` -/
  | write (msg : String)
  /-- `short write` -/
  | shortWrite
  /-- `failed to read: ...` -/
  | read (msg : String)
  /-- `failed to close temp file: ...` -/
  | close (msg : String)
  /-- `failed to move downloaded file: ...` -/
  | move (msg : String)
  deriving Repr, DecidableEq

/-- Whether the error comes from the rename step. -/
def DownloadError.isMove : DownloadError → Bool
  | .move _ => true
  | _ => false

/-- The text of the error, as `fmt.Errorf` builds it. -/
def DownloadError.message : DownloadError → String
  | .createTemp msg => "failed to create temp file: " ++ msg
  | .download msg => "failed to download: " ++ msg
  | .status st => "download failed with status: " ++ st
  | .write msg => "failed to write: " ++ msg
  | .shortWrite => "short write"
  | .read msg => "failed to read: " ++ msg
  | .close msg => "failed to close temp file: " ++ msg
  | .move msg => "failed to move downloaded file: " ++ msg

/-- The `CheckRedirect` callback of the client (main.go lines 184-189), by `len(via)`. -/
def checkRedirect (viaLen : Nat) : Except String Unit :=
  if viaLen ≥ 10 then .error "too many redirects" else .ok ()

/-- Follow `n` more redirects, the next one being redirect number `k`:
`CheckRedirect` is consulted before each, with `len(via) = k`. -/
def followFrom : Nat → Nat → Except String Unit
  | _, 0 => .ok ()
  | k, n + 1 =>
    match checkRedirect k with
    | .error e => .error e
    | .ok _ => followFrom (k + 1) n

/-- A request chain that redirects `n` times, the first redirect having `len(via) = 1`. -/
def followRedirects (n : Nat) : Except String Unit :=
  followFrom 1 n

/-- Go `client.Get(url)`: the redirects are followed under `CheckRedirect`, then
the final outcome is returned. (Go wraps the callback's error in a `url.Error`;
the wrapping is left out.) -/
def clientGet (redirects : Nat) (final : Except String Response) : Except String Response :=
  match followRedirects redirects with
  | .error e => .error e
  | .ok _ => final

/-- Size of the copy buffer, `32*1024`. -/
def bufSize : Nat := 32 * 1024

/-- The percentage shown: `int(float64(written)/float64(contentLength)*100)`,
taken as the floor of `100 * written / contentLength` (`contentLength > 0`). -/
def percentOf (written : Nat) (contentLength : Int) : Int :=
  ((100 * written / contentLength.toNat : Nat) : Int)

/-- The local variables of the copy loop, with what was printed so far. -/
structure CopyState where
  written : Nat
  lastPercent : Int
  /-- bytes that reached the temp file -/
  tmp : Bytes
  /-- outcomes of the writes still to come -/
  writes : List WriteOutcome
  out : List Action
  deriving Repr, DecidableEq

/-- Start of the loop: `written = 0`, `lastPercent = -1`. -/
def CopyState.init (writes : List WriteOutcome) : CopyState :=
  { written := 0, lastPercent := -1, tmp := [], writes := writes, out := [] }

/-- The `if n > 0 { ... }` block of the loop body (lines 215-233) for one read
that returned `data`: the error it returns, if any, and the state it leaves. -/
def copyChunk (tmpPath : String) (contentLength : Int) (st : CopyState) (data : Bytes) :
    Option DownloadError × CopyState :=
  let chunk := data.take bufSize
  let n := chunk.length
  if n > 0 then
    let st1 := { st with writes := st.writes.tail, out := st.out ++ [Action.writeTemp tmpPath n] }
    match st.writes.head? with
    | some (.err msg) => (some (.write msg), st1)
    | some .short => (some .shortWrite, st1)
    | _ =>
      let written := st.written + n
      let st2 := { st1 with written := written, tmp := st.tmp ++ chunk }
      if contentLength > 0 then
        let percent := percentOf written contentLength
        if percent ≠ st.lastPercent ∧ percent % 10 = 0 then
          (none, { st2 with out := st2.out ++ [Action.progress percent], lastPercent := percent })
        else (none, st2)
      else (none, st2)
  else (none, st)

/-- The reads that return a nil error, in order. -/
def copyReads (tmpPath : String) (contentLength : Int) :
    CopyState → List Bytes → Option DownloadError × CopyState
  | st, [] => (none, st)
  | st, data :: rest =>
    match copyChunk tmpPath contentLength st data with
    | (some e, st1) => (some e, st1)
    | (none, st1) => copyReads tmpPath contentLength st1 rest

/-- The whole `for` loop (lines 213-240) over a response body. -/
def copyLoop (tmpPath : String) (contentLength : Int) (writes : List WriteOutcome) (body : Body) :
    Option DownloadError × CopyState :=
  match copyReads tmpPath contentLength (CopyState.init writes) body.reads with
  | (some e, st) => (some e, st)
  | (none, st) =>
    match copyChunk tmpPath contentLength st body.last with
    | (some e, st1) => (some e, st1)
    | (none, st1) =>
      match body.lastErr with
      | none => (none, st1)
      | some msg => (some (.read msg), st1)

/-- Go `os.CreateTemp(dir, "download-*.tmp")`: the first candidate name at which
nothing exists yet is created, empty, with mode 0600. -/
def createTemp (fp : Filepath) (s : DownloadScript) (fs : FS) (dir : String) :
    Except String (String × FS) :=
  match s.createTempErr with
  | some e => .error e
  | none =>
    match (s.tempNames.map (fun r => fp.Join [dir, "download-" ++ r ++ ".tmp"])).find?
        (fun p => !fs.present p) with
    | none => .error "file exists"
    | some tmpPath => .ok (tmpPath, fs.write tmpPath { content := [], mode := 0o600 })

/-- What a call of `downloadFile` leaves behind. -/
structure DownloadResult where
  err : Option DownloadError
  fs : FS
  trace : List Action

/-- A call of `os.Remove(p)` whose error the program discards: the file goes,
unless the system refuses and everything stays as it is. -/
def removeIgnoringError (refused : Option String) (fs : FS) (p : String) : FS :=
  match refused with
  | none => fs.remove p
  | some _ => fs

/-- The deferred calls, run at every return after the temp file was created:
`resp.Body.Close()` when there is a response, then `tmpFile.Close()` and
`os.Remove(tmpPath)`, whose error is discarded. -/
def deferred (s : DownloadScript) (tmpPath : String) (err : Option DownloadError) (fs : FS)
    (trace : List Action) : DownloadResult :=
  { err := err
    fs := removeIgnoringError s.cleanupErr fs tmpPath
    trace := trace ++ [Action.closeTemp tmpPath, Action.remove tmpPath] }

/-- The rename step (lines 251-262), on the filesystem that holds the finished
temp file. In the Windows fallback the error of `os.Remove(destPath)` is
discarded and the second rename is tried in any case. -/
def moveIntoPlace (goos : String) (s : DownloadScript) (fs : FS) (tmpPath destPath : String) :
    Option DownloadError × FS × List Action :=
  match s.renameErr with
  | none => (none, fs.rename tmpPath destPath, [Action.rename tmpPath destPath])
  | some err =>
    if goos == "windows" then
      let fs1 := removeIgnoringError s.removeErr fs destPath
      match s.renameErr2 with
      | none =>
        (none, fs1.rename tmpPath destPath,
          [Action.rename tmpPath destPath, Action.remove destPath, Action.rename tmpPath destPath])
      | some err2 =>
        (some (.move err2), fs1,
          [Action.rename tmpPath destPath, Action.remove destPath, Action.rename tmpPath destPath])
    else
      (some (.move err), fs, [Action.rename tmpPath destPath])

/-- Function `downloadFile` (main.go lines 169-265). -/
def downloadFile (fp : Filepath) (goos : String) (s : DownloadScript) (fs : FS)
    (destPath url : String) : DownloadResult :=
  let dir := fp.Dir destPath
  match createTemp fp s fs dir with
  | .error e =>
    { err := some (.createTemp e), fs := fs, trace := [Action.createTemp dir] }
  | .ok (tmpPath, fs0) =>
    let t0 := [Action.createTemp dir, Action.httpGet url]
    match clientGet s.redirects s.response with
    | .error e => deferred s tmpPath (some (.download e)) fs0 t0
    | .ok resp =>
      if resp.statusCode ≠ 200 then
        deferred s tmpPath (some (.status resp.status)) fs0 t0
      else
        let contentLength := resp.contentLength
        match copyLoop tmpPath contentLength s.writes resp.body with
        | (some e, st) =>
          deferred s tmpPath (some e) (fs0.write tmpPath { content := st.tmp, mode := 0o600 })
            (t0 ++ st.out)
        | (none, st) =>
          let fs1 := fs0.write tmpPath { content := st.tmp, mode := 0o600 }
          match s.closeErr with
          | some e => deferred s tmpPath (some (.close e)) fs1 (t0 ++ st.out ++ [Action.closeTemp tmpPath])
          | none =>
            let t1 := t0 ++ st.out ++ [Action.closeTemp tmpPath, Action.downloaded st.written]
            match moveIntoPlace goos s fs1 tmpPath destPath with
            | (err, fs2, t2) => deferred s tmpPath err fs2 (t1 ++ t2)

/-! ## main -/

/-- How the process ends and what it did. `exitCode` is the argument of
`os.Exit`, or 0 when `main` returns. -/
structure Result where
  exitCode : Int
  trace : List Action
  fs : FS
  deriving Repr, DecidableEq

/-- The error value of `cmd.Run()`: an `*exec.ExitError` with its `ExitCode()`, or another error. -/
inductive RunError where
  | exitError (exitCode : Int)
  | other (msg : String)
  deriving Repr, DecidableEq

/-- Go `cmd.Run()`: nil when the child exits with 0, an `*exec.ExitError` when it
exits with another code or is killed by a signal (`ExitCode()` is then -1),
another error when it could not be started. -/
def cmdRun : ChildOutcome → Option RunError
  | .exited 0 => none
  | .exited (c + 1) => some (.exitError ((c + 1 : Nat) : Int))
  | .signaled => some (.exitError (-1))
  | .notStarted msg => some (.other msg)

/-- Go `os.MkdirAll(p, 0755)`: nothing to do when `p` is a directory, an error
when `p` is a regular file, otherwise the directory is created unless the
system refuses. (Parents are created along the way; they are not tracked.) -/
def mkdirAll (w : World) (fs : FS) (p : String) : Except String FS :=
  if fs.isDir p then .ok fs
  else if (fs.lookup p).isSome then .error "not a directory"
  else
    match w.mkdirAllErr with
    | some e => .error e
    | none => .ok { fs with dirs := p :: fs.dirs }

/-- Go `os.Chmod(p, mode)` on a regular file. -/
def chmod (fs : FS) (p : String) (mode : Nat) : FS :=
  match fs.lookup p with
  | none => fs
  | some f => fs.write p { f with mode := mode }

/-- The download URL built at lines 80-91. -/
def downloadURL (platform ext : String) : String :=
  if AppVersion == "latest" then
    "https://github.com/" ++ GitHubRepo ++ "/releases/latest/download/immich-importer-"
      ++ platform ++ ext
  else
    "https://github.com/" ++ GitHubRepo ++ "/releases/download/" ++ AppVersion
      ++ "/immich-importer-" ++ platform ++ ext

/-- Lines 115-131 of `main`: launch the importer and mirror how it ends. -/
def launch (w : World) (fs : FS) (trace : List Action) (appPath serverURL setupToken : String) :
    Result :=
  let t := trace ++ [Action.stdout "", Action.stdout "Launching Immich Importer...",
    Action.stdout "", Action.spawn appPath ["--server", serverURL, "--token", setupToken]]
  match cmdRun w.child with
  | none => { exitCode := 0, trace := t, fs := fs }
  | some (.exitError code) => { exitCode := code, trace := t, fs := fs }
  | some (.other msg) =>
    { exitCode := 1, trace := t ++ [Action.stderr ("Error running importer: " ++ msg)], fs := fs }

/-- Lines 78-113 of `main`: the `if needsDownload { ... }` block, followed by the launch. -/
def downloadAndLaunch (fp : Filepath) (w : World) (fs : FS) (trace : List Action)
    (appPath platform ext serverURL setupToken : String) : Result :=
  let url := downloadURL platform ext
  let t := trace ++ [Action.stdout "Downloading importer from GitHub...",
    Action.stdout ("URL: " ++ url), Action.stdout ""]
  let r := downloadFile fp w.goos w.dl fs appPath url
  match r.err with
  | some err =>
    { exitCode := 1
      trace := t ++ r.trace ++ [Action.stderr ("Failed to download importer: " ++ err.message),
        Action.stderr "",
        Action.stderr "Please check your internet connection and try again.",
        Action.stderr "If the problem persists, the release may not be available yet."]
      fs := r.fs }
  | none =>
    let t1 := t ++ r.trace
    if w.goos != "windows" then
      match w.chmodErr with
      | some e =>
        launch w r.fs
          (t1 ++ [Action.chmod appPath 0o755,
            Action.stderr ("Warning: Failed to make app executable: " ++ e),
            Action.stdout "Download complete!"])
          appPath serverURL setupToken
      | none =>
        launch w (chmod r.fs appPath 0o755)
          (t1 ++ [Action.chmod appPath 0o755, Action.stdout "Download complete!"])
          appPath serverURL setupToken
    else
      launch w r.fs (t1 ++ [Action.stdout "Download complete!"]) appPath serverURL setupToken

/-- Function `main` (main.go lines 30-132), on the patched globals `cfg`. -/
def main (fp : Filepath) (cfg : Config) (w : World) : Result :=
  let banner := [Action.stdout "Immich Google Photos Importer - Bootstrap",
    Action.stdout "=========================================="]
  let serverURL := trimRight cfg.ServerURL paddingCutset
  let setupToken := trimRight cfg.SetupToken paddingCutset
  if hasPrefix serverURL placeholderPrefix || serverURL == "" then
    { exitCode := 1
      trace := banner ++ [Action.stderr "Error: This bootstrap binary was not properly configured.",
        Action.stderr "Please download a fresh copy from your Immich server."]
      fs := w.fs }
  else
    let t0 := banner ++ [Action.stdout ("Server: " ++ serverURL), Action.stdout ""]
    let platform := w.goos ++ "-" ++ w.goarch
    let ext := if w.goos == "windows" then ".exe" else ""
    match getAppDataDir fp w with
    | .error err =>
      { exitCode := 1
        trace := t0 ++ [Action.stderr ("Error getting app data directory: " ++ err)]
        fs := w.fs }
    | .ok appDir =>
      match mkdirAll w w.fs appDir with
      | .error err =>
        { exitCode := 1
          trace := t0 ++ [Action.mkdirAll appDir,
            Action.stderr ("Error creating app directory: " ++ err)]
          fs := w.fs }
      | .ok fs1 =>
        let appPath := fp.Join [appDir, "immich-importer" ++ ext]
        let t1 := t0 ++ [Action.mkdirAll appDir, Action.stat appPath]
        if fs1.present appPath then
          launch w fs1 (t1 ++ [Action.stdout "Found existing importer, checking for updates..."])
            appPath serverURL setupToken
        else
          downloadAndLaunch fp w fs1 t1 appPath platform ext serverURL setupToken

/-! ## Sample worlds -/

/-- What `Dir` keeps of `p` for the separator `sep`: all but the last element,
without the separators that end it. -/
def dropLastElement (sep : Char) (p : String) : String :=
  ⟨(p.data.rdropWhile (fun c => c != sep)).rdropWhile (fun c => c == sep)⟩

/-- A `filepath` for slash-separated paths whose elements are already clean:
`Join` drops empty elements and puts a slash between the others; `Dir` cuts
the last element off, giving `/` or `.` when nothing is left. -/
def slashPaths : Filepath where
  Join := fun elems => "/".intercalate (elems.filter (fun e => e != ""))
  Dir := fun p =>
    if dropLastElement '/' p != "" then dropLastElement '/' p
    else if hasPrefix p "/" then "/" else "."

/-- A successful download of `n` chunks of `size` zero bytes with `Content-Length` `len`. -/
def chunkedResponse (n size : Nat) (len : Int) : Response :=
  { statusCode := 200, status := "200 OK", contentLength := len
    body := { reads := List.replicate n (List.replicate size 0), last := [], lastErr := none } }

/-- A script in which every step of the download succeeds. -/
def okScript (resp : Response) : DownloadScript :=
  { tempNames := ["1234567"], createTempErr := none, redirects := 1, response := .ok resp
    writes := [], closeErr := none, renameErr := none, renameErr2 := none
    removeErr := none, cleanupErr := none }

/-- A Linux machine with home `/home/u`, the application directory present and
the importer already cached in it. -/
def cachedLinux : World :=
  { goos := "linux", goarch := "amd64", home := .ok "/home/u", env := []
    fs := { dirs := ["/home/u/.config/immich-importer"]
            files := [("/home/u/.config/immich-importer/immich-importer",
              { content := [127, 69, 76, 70], mode := 0o755 })] }
    mkdirAllErr := none
    dl := okScript (chunkedResponse 4 8 32)
    chmodErr := none
    child := .exited 42 }

/-- A fresh Linux machine: nothing cached yet. -/
def freshLinux : World :=
  { cachedLinux with fs := { dirs := ["/home/u"], files := [] }, child := .exited 0 }

/-- A `filepath` for backslash-separated paths whose elements are already clean. -/
def backslashPaths : Filepath where
  Join := fun elems => "\\".intercalate (elems.filter (fun e => e != ""))
  Dir := fun p => dropLastElement '\\' p

/-- A server URL patched into the 128 characters of `ServerURL`. -/
def patchedURL : String := "https://immich.example.com" ++ repeatChar '_' 102

/-- A setup token that ends in an underscore, as base64url text may. -/
def tokenWithTail : String := "c2V0dXAtdG9rZW4_"

/-- The same token patched into the 129 characters of `SetupToken`, filled with underscores. -/
def patchedTokenWithTail : String := tokenWithTail ++ repeatChar '_' 113

/-- A setup token patched into the 129 characters of `SetupToken`, filled with NUL bytes. -/
def patchedToken : String := "c2V0dXAtdG9rZW4" ++ repeatChar '\x00' 114

/-- A download in which everything succeeds up to the rename, and the finished
temp file cannot be renamed (it is held open by another process, say). -/
def lockedTempScript : DownloadScript :=
  { okScript (chunkedResponse 4 8 32) with
    renameErr := some "Access is denied.", renameErr2 := some "Access is denied." }

/-- The same download when the destination cannot be removed either (it is in use). -/
def lockedBothScript : DownloadScript :=
  { lockedTempScript with removeErr := some "Access is denied." }

/-- The filesystem of a Windows machine on which the importer is already in place. -/
def windowsCachedFS : FS :=
  { dirs := ["C:\\Users\\u\\AppData\\Roaming\\ImmichImporter"]
    files := [("C:\\Users\\u\\AppData\\Roaming\\ImmichImporter\\immich-importer.exe",
      { content := [77, 90], mode := 0o666 })] }

/-- The importer path on that machine. -/
def windowsImporter : String :=
  "C:\\Users\\u\\AppData\\Roaming\\ImmichImporter\\immich-importer.exe"

/-- The percentage of a progress line. -/
def Action.percent? : Action → Option Int
  | .progress percent => some percent
  | _ => none

/-- The percentages printed by a run, in order. -/
def progressLines (t : List Action) : List Int :=
  t.filterMap Action.percent?

/-- One pass through the loop body on the counters alone: the new `written`, the
new `lastPercent` and the percentage printed, if any, for a read of `n` bytes
whose write succeeds. -/
def counterStep (contentLength : Int) (written : Nat) (lastPercent : Int) (n : Nat) :
    Nat × Int × List Int :=
  if n > 0 then
    if contentLength > 0 then
      if percentOf (written + n) contentLength ≠ lastPercent
          ∧ percentOf (written + n) contentLength % 10 = 0 then
        (written + n, percentOf (written + n) contentLength,
          [percentOf (written + n) contentLength])
      else (written + n, lastPercent, [])
    else (written + n, lastPercent, [])
  else (written, lastPercent, [])

/-- The percentages printed for reads of the given sizes, on the counters alone. -/
def counterRun (contentLength : Int) : Nat → Int → List Nat → List Int
  | _, _, [] => []
  | written, lastPercent, n :: ns =>
    (counterStep contentLength written lastPercent n).2.2
      ++ counterRun contentLength (counterStep contentLength written lastPercent n).1
          (counterStep contentLength written lastPercent n).2.1 ns

/-- A Windows machine on which `APPDATA` is set and the home directory cannot be determined. -/
def windowsNoHome : World :=
  { goos := "windows", goarch := "amd64", home := .error "%userprofile% is not defined"
    env := [("APPDATA", "C:\\Users\\u\\AppData\\Roaming")]
    fs := { dirs := [], files := [] }
    mkdirAllErr := none
    dl := okScript (chunkedResponse 4 8 32)
    chmodErr := none
    child := .exited 0 }

/-- A Linux machine on which `XDG_CONFIG_HOME` is set to the empty string. -/
def linuxEmptyXDG : World :=
  { cachedLinux with env := [("XDG_CONFIG_HOME", "")] }

/-- The kinds of action `downloadFile` performs. -/
def Action.isDownloadStep : Action → Bool
  | .createTemp _ | .httpGet _ | .writeTemp _ _ | .progress _ | .closeTemp _
  | .downloaded _ | .rename _ _ | .remove _ => true
  | _ => false

/-! ## Theorems -/

/-- C2: of the two placeholders only `ServerURL` is 128 characters long; the
initial value of `SetupToken` has 129 characters, one more than the comment
above it promises. -/
theorem placeholder_lengths :
    ServerURL.length = placeholderWidth ∧ SetupToken.length = placeholderWidth + 1 := by
  constructor <;> rfl

/-- C1: with the server URL patched and the setup token left as built, `main`
does not stop at the configuration check: it creates the directory, stats the
cached file and launches it with the trimmed placeholder as the token, ending
with the exit code of the child. -/
theorem unpatched_token_is_launched :
    (main slashPaths { ServerURL := patchedURL, SetupToken := SetupToken } cachedLinux).exitCode = 42
    ∧ (main slashPaths { ServerURL := patchedURL, SetupToken := SetupToken } cachedLinux).trace
        = [Action.stdout "Immich Google Photos Importer - Bootstrap",
           Action.stdout "==========================================",
           Action.stdout "Server: https://immich.example.com",
           Action.stdout "",
           Action.mkdirAll "/home/u/.config/immich-importer",
           Action.stat "/home/u/.config/immich-importer/immich-importer",
           Action.stdout "Found existing importer, checking for updates...",
           Action.stdout "",
           Action.stdout "Launching Immich Importer...",
           Action.stdout "",
           Action.spawn "/home/u/.config/immich-importer/immich-importer"
             ["--server", "https://immich.example.com",
              "--token", "__IMMICH_SETUP_TOKEN_PLACEHOLDER"]] := by
  constructor <;> rfl

/-- With a server URL that is empty or still carries the placeholder prefix
after trimming, `main` exits with code 1 having done nothing but print: no
filesystem action, no network action, no child. -/
theorem main_rejects_unpatched_server (fp : Filepath) (cfg : Config) (w : World)
    (h : hasPrefix (trimRight cfg.ServerURL paddingCutset) placeholderPrefix = true
      ∨ trimRight cfg.ServerURL paddingCutset = "") :
    (main fp cfg w).exitCode = 1
    ∧ (main fp cfg w).fs = w.fs
    ∧ ∀ a ∈ (main fp cfg w).trace,
        a.isFilesystem = false ∧ a.isNetwork = false ∧ a.isSpawn = false := by
  have hcfg : (hasPrefix (trimRight cfg.ServerURL paddingCutset) placeholderPrefix
      || trimRight cfg.ServerURL paddingCutset == "") = true := by
    rcases h with h | h
    · simp [h]
    · simp [h]
  unfold main
  simp only []
  rw [if_pos hcfg]
  refine ⟨rfl, rfl, ?_⟩
  intro a ha
  simp only [List.mem_append, List.mem_cons, List.mem_singleton, List.not_mem_nil,
    or_false] at ha
  rcases ha with (h | h) | (h | h) <;> (subst h; exact ⟨rfl, rfl, rfl⟩)

/-- The binary as built is rejected. -/
theorem main_rejects_unpatched_binary (fp : Filepath) (w : World) :
    (main fp unpatchedConfig w).exitCode = 1 :=
  (main_rejects_unpatched_server fp unpatchedConfig w (Or.inl rfl)).1

/-! ### Redirects -/

theorem followFrom_eq (k n : Nat) :
    followFrom k n = if n = 0 ∨ k + n ≤ 10 then .ok () else .error "too many redirects" := by
  induction n generalizing k with
  | zero => simp [followFrom]
  | succ m ih =>
    unfold followFrom checkRedirect
    by_cases hk : k ≥ 10
    · have h1 : ¬ (k + (m + 1) ≤ 10) := by omega
      simp [hk, h1]
    · simp only [hk, if_false]
      rw [ih (k + 1)]
      by_cases hm : m = 0
      · subst hm
        have h2 : k + (0 + 1) ≤ 10 := by omega
        simp [h2]
      · have h3 : (k + 1 + m ≤ 10) ↔ (k + (m + 1) ≤ 10) := by omega
        simp [hm, h3]

theorem followRedirects_eq (n : Nat) :
    followRedirects n = if n ≤ 9 then .ok () else .error "too many redirects" := by
  unfold followRedirects
  rw [followFrom_eq]
  by_cases h : n ≤ 9
  · have h1 : n = 0 ∨ 1 + n ≤ 10 := Or.inr (by omega)
    simp [h, h1]
  · have h1 : ¬ (n = 0 ∨ 1 + n ≤ 10) := by omega
    simp [h, h1]

/-- C5: a request chain with `n` redirects passes the client's `CheckRedirect`
for every `n ≤ 9`, so that `client.Get` returns the final outcome, and for every
`n ≥ 10` `client.Get` fails with the error `too many redirects`. -/
theorem redirect_cap (n : Nat) (final : Except String Response) :
    (n ≤ 9 → followRedirects n = .ok () ∧ clientGet n final = final)
    ∧ (10 ≤ n → followRedirects n = .error "too many redirects"
        ∧ clientGet n final = .error "too many redirects") := by
  unfold clientGet
  rw [followRedirects_eq]
  constructor
  · intro h
    simp [h]
  · intro h
    have h1 : ¬ n ≤ 9 := by omega
    simp [h1]

theorem redirect_cap_witness :
    (followRedirects 9 = .ok () ∧ clientGet 9 (.ok (chunkedResponse 1 8 8)) = .ok (chunkedResponse 1 8 8))
    ∧ (followRedirects 10 = .error "too many redirects"
        ∧ clientGet 10 (.ok (chunkedResponse 1 8 8)) = .error "too many redirects") :=
  ⟨(redirect_cap 9 (.ok (chunkedResponse 1 8 8))).1 (by decide),
   (redirect_cap 10 (.ok (chunkedResponse 1 8 8))).2 (by decide)⟩

/-! ### getAppDataDir -/

/-- C9, counterexample: on Windows with `APPDATA` set, `getAppDataDir` returns a
path although the home directory lookup fails. -/
theorem getAppDataDir_windows_ignores_home :
    windowsNoHome.home = .error "%userprofile% is not defined"
    ∧ getAppDataDir backslashPaths windowsNoHome
        = .ok "C:\\Users\\u\\AppData\\Roaming\\ImmichImporter" := by
  constructor <;> rfl

/-- C9, amended: when the home directory lookup fails, `getAppDataDir` returns
that error and no path on every operating system other than windows, and on
windows when `APPDATA` is unset or empty; on windows with a non-empty `APPDATA`
it returns `APPDATA` joined with `ImmichImporter` without looking up the home. -/
theorem getAppDataDir_home_failure (fp : Filepath) (w : World) (err : String)
    (hhome : w.home = .error err) :
    ((w.goos ≠ "windows" ∨ w.getenv "APPDATA" = "") → getAppDataDir fp w = .error err)
    ∧ (w.goos = "windows" → w.getenv "APPDATA" ≠ "" →
        getAppDataDir fp w = .ok (fp.Join [w.getenv "APPDATA", "ImmichImporter"])) := by
  constructor
  · intro h
    unfold getAppDataDir
    by_cases hd : w.goos = "darwin"
    · simp [hd, hhome]
    · by_cases hw : w.goos = "windows"
      · rcases h with h | h
        · exact absurd hw h
        · simp [hw, h, hhome]
      · simp [hd, hw, hhome]
  · intro hw ha
    unfold getAppDataDir
    simp [hw, ha]

theorem getAppDataDir_home_failure_witness :
    getAppDataDir slashPaths { cachedLinux with home := .error "$HOME is not defined" }
      = .error "$HOME is not defined" :=
  (getAppDataDir_home_failure slashPaths { cachedLinux with home := .error "$HOME is not defined" }
    "$HOME is not defined" rfl).1 (Or.inl (by decide))

/-- C10, counterexample: on Linux with `XDG_CONFIG_HOME` set to the empty
string the result is not `XDG_CONFIG_HOME` joined with `immich-importer` but the
directory under the home. -/
theorem getAppDataDir_empty_xdg :
    linuxEmptyXDG.goos = "linux"
    ∧ linuxEmptyXDG.env.lookup "XDG_CONFIG_HOME" = some ""
    ∧ getAppDataDir slashPaths linuxEmptyXDG = .ok "/home/u/.config/immich-importer"
    ∧ getAppDataDir slashPaths linuxEmptyXDG
        ≠ .ok (slashPaths.Join ["", "immich-importer"]) := by
  refine ⟨rfl, rfl, rfl, ?_⟩
  intro h
  have h1 : ("/home/u/.config/immich-importer" : String) = "immich-importer" :=
    Except.ok.inj h
  exact absurd h1 (by decide)

/-- C10, amended: a successful `getAppDataDir` returns, on darwin, the home
joined with `Library`, `Application Support`, `ImmichImporter`; on windows,
`APPDATA` joined with `ImmichImporter` when `APPDATA` is set to a non-empty
value, and the home joined with `AppData`, `Roaming`, then `ImmichImporter` when
it is unset or empty; on every other OS, `XDG_CONFIG_HOME` joined with
`immich-importer` when that variable is set to a non-empty value, and the home
joined with `.config`, then `immich-importer` when it is unset or empty. Two
worlds with the same OS, home directory, `APPDATA` and `XDG_CONFIG_HOME` get the
same result. -/
theorem getAppDataDir_canonical (fp : Filepath) (w : World) (d : String)
    (hok : getAppDataDir fp w = .ok d) :
    (w.goos = "darwin" →
      ∃ home, w.home = .ok home
        ∧ d = fp.Join [home, "Library", "Application Support", "ImmichImporter"])
    ∧ (w.goos = "windows" → ∀ v, w.env.lookup "APPDATA" = some v → v ≠ "" →
        d = fp.Join [v, "ImmichImporter"])
    ∧ (w.goos = "windows" →
        (w.env.lookup "APPDATA" = none ∨ w.env.lookup "APPDATA" = some "") →
        ∃ home, w.home = .ok home
          ∧ d = fp.Join [fp.Join [home, "AppData", "Roaming"], "ImmichImporter"])
    ∧ (w.goos ≠ "darwin" → w.goos ≠ "windows" →
        ∀ v, w.env.lookup "XDG_CONFIG_HOME" = some v → v ≠ "" →
          d = fp.Join [v, "immich-importer"])
    ∧ (w.goos ≠ "darwin" → w.goos ≠ "windows" →
        (w.env.lookup "XDG_CONFIG_HOME" = none ∨ w.env.lookup "XDG_CONFIG_HOME" = some "") →
        ∃ home, w.home = .ok home
          ∧ d = fp.Join [fp.Join [home, ".config"], "immich-importer"])
    ∧ (∀ w2 : World, w2.goos = w.goos → w2.home = w.home →
        w2.getenv "APPDATA" = w.getenv "APPDATA" →
        w2.getenv "XDG_CONFIG_HOME" = w.getenv "XDG_CONFIG_HOME" →
        getAppDataDir fp w2 = .ok d) := by
  refine ⟨?_, ?_, ?_, ?_, ?_, ?_⟩
  · intro hd
    unfold getAppDataDir at hok
    cases hh : w.home with
    | error e => simp [hd, hh] at hok
    | ok home =>
      refine ⟨home, rfl, ?_⟩
      simp [hd, hh] at hok
      exact hok.symm
  · intro hw v hv hne
    unfold getAppDataDir at hok
    have hg : w.getenv "APPDATA" = v := by simp [World.getenv, hv]
    simp [hw, hg, hne] at hok
    exact hok.symm
  · intro hw hv
    unfold getAppDataDir at hok
    have hg : w.getenv "APPDATA" = "" := by
      rcases hv with hv | hv <;> simp [World.getenv, hv]
    cases hh : w.home with
    | error e => simp [hw, hg, hh] at hok
    | ok home =>
      refine ⟨home, rfl, ?_⟩
      simp [hw, hg, hh] at hok
      exact hok.symm
  · intro hd hw v hv hne
    unfold getAppDataDir at hok
    have hg : w.getenv "XDG_CONFIG_HOME" = v := by simp [World.getenv, hv]
    cases hh : w.home with
    | error e => simp [hd, hw, hh] at hok
    | ok home =>
      simp [hd, hw, hg, hne, hh] at hok
      exact hok.symm
  · intro hd hw hv
    unfold getAppDataDir at hok
    have hg : w.getenv "XDG_CONFIG_HOME" = "" := by
      rcases hv with hv | hv <;> simp [World.getenv, hv]
    cases hh : w.home with
    | error e => simp [hd, hw, hh] at hok
    | ok home =>
      refine ⟨home, rfl, ?_⟩
      simp [hd, hw, hg, hh] at hok
      exact hok.symm
  · intro w2 h1 h2 h3 h4
    rw [← hok]
    unfold getAppDataDir
    rw [h1, h2, h3, h4]

theorem getAppDataDir_canonical_witness :
    ∃ home, cachedLinux.home = .ok home
      ∧ "/home/u/.config/immich-importer"
          = slashPaths.Join [slashPaths.Join [home, ".config"], "immich-importer"] :=
  (getAppDataDir_canonical slashPaths cachedLinux "/home/u/.config/immich-importer" rfl).2.2.2.2.1
    (by decide) (by decide) (Or.inl rfl)

/-! ### What the download can do -/

theorem copyChunk_out (tmpPath : String) (cl : Int) (st : CopyState) (data : Bytes)
    (h : st.out.all Action.isDownloadStep = true) :
    (copyChunk tmpPath cl st data).2.out.all Action.isDownloadStep = true := by
  unfold copyChunk
  simp only []
  split_ifs <;> (try split) <;>
    simp [List.all_append, Action.isDownloadStep, h]

theorem copyReads_out (tmpPath : String) (cl : Int) (reads : List Bytes) :
    ∀ st : CopyState, st.out.all Action.isDownloadStep = true →
      (copyReads tmpPath cl st reads).2.out.all Action.isDownloadStep = true := by
  induction reads with
  | nil => intro st h; simpa [copyReads] using h
  | cons data rest ih =>
    intro st h
    have hc := copyChunk_out tmpPath cl st data h
    unfold copyReads
    rcases hcc : copyChunk tmpPath cl st data with ⟨e, st1⟩
    rw [hcc] at hc
    cases e with
    | some e => simpa using hc
    | none => simpa using ih st1 hc

theorem copyLoop_out (tmpPath : String) (cl : Int) (writes : List WriteOutcome) (body : Body) :
    (copyLoop tmpPath cl writes body).2.out.all Action.isDownloadStep = true := by
  have h0 : (CopyState.init writes).out.all Action.isDownloadStep = true := by
    simp [CopyState.init]
  have h1 := copyReads_out tmpPath cl body.reads (CopyState.init writes) h0
  unfold copyLoop
  rcases hr : copyReads tmpPath cl (CopyState.init writes) body.reads with ⟨e, st⟩
  rw [hr] at h1
  cases e with
  | some e => simpa using h1
  | none =>
    have h2 := copyChunk_out tmpPath cl st body.last h1
    simp only []
    rcases hc : copyChunk tmpPath cl st body.last with ⟨e1, st1⟩
    rw [hc] at h2
    cases e1 with
    | some e1 => simpa using h2
    | none =>
      cases hl : body.lastErr with
      | none => simpa [hl] using h2
      | some msg => simpa [hl] using h2

theorem moveIntoPlace_out (goos : String) (s : DownloadScript) (fs : FS) (tmpPath destPath : String) :
    (moveIntoPlace goos s fs tmpPath destPath).2.2.all Action.isDownloadStep = true := by
  unfold moveIntoPlace
  split
  · simp [Action.isDownloadStep]
  · split_ifs
    · split <;> simp [Action.isDownloadStep]
    · simp [Action.isDownloadStep]

theorem downloadFile_trace (fp : Filepath) (goos : String) (s : DownloadScript) (fs : FS)
    (destPath url : String) :
    (downloadFile fp goos s fs destPath url).trace.all Action.isDownloadStep = true := by
  unfold downloadFile
  simp only []
  cases hct : createTemp fp s fs (fp.Dir destPath) with
  | error e => simp [Action.isDownloadStep]
  | ok pr =>
    obtain ⟨tmpPath, fs0⟩ := pr
    simp only []
    cases hget : clientGet s.redirects s.response with
    | error e => simp [deferred, Action.isDownloadStep]
    | ok resp =>
      simp only []
      by_cases hst : resp.statusCode = 200
      · simp only [hst, ne_eq, not_true_eq_false, if_false]
        have hl := copyLoop_out tmpPath resp.contentLength s.writes resp.body
        rcases hcl : copyLoop tmpPath resp.contentLength s.writes resp.body with ⟨e, st⟩
        rw [hcl] at hl
        cases e with
        | some e =>
          simp only [deferred, List.all_append, hl]
          simp [Action.isDownloadStep]
        | none =>
          simp only []
          cases hce : s.closeErr with
          | some e =>
            simp only [deferred, List.all_append, hl]
            simp [Action.isDownloadStep]
          | none =>
            have hm := moveIntoPlace_out goos s
              (fs0.write tmpPath { content := st.tmp, mode := 0o600 }) tmpPath destPath
            simp only [deferred, List.all_append, hl, hm]
            simp [Action.isDownloadStep]
      · simp [hst, deferred, Action.isDownloadStep]

theorem downloadFile_no_spawn (fp : Filepath) (goos : String) (s : DownloadScript) (fs : FS)
    (destPath url : String) (p : String) (args : List String) :
    Action.spawn p args ∉ (downloadFile fp goos s fs destPath url).trace := by
  intro h
  have := List.all_eq_true.mp (downloadFile_trace fp goos s fs destPath url) _ h
  simp [Action.isDownloadStep] at this

/-! ### The launch -/

theorem launch_exitCode (w : World) (fs : FS) (t : List Action) (appPath u tok : String) :
    (∀ c, w.child = .exited c → (launch w fs t appPath u tok).exitCode = (c : Int))
    ∧ (∀ msg, w.child = .notStarted msg → (launch w fs t appPath u tok).exitCode = 1) := by
  constructor
  · intro c hc
    cases c with
    | zero => simp [launch, cmdRun, hc]
    | succ c => simp [launch, cmdRun, hc]
  · intro msg hc
    simp [launch, cmdRun, hc]

theorem launch_trace (w : World) (fs : FS) (t : List Action) (appPath u tok : String) :
    ∃ rest, (launch w fs t appPath u tok).trace
      = t ++ [Action.stdout "", Action.stdout "Launching Immich Importer...", Action.stdout "",
          Action.spawn appPath ["--server", u, "--token", tok]] ++ rest
      ∧ ∀ p args, Action.spawn p args ∉ rest := by
  unfold launch
  simp only []
  cases cmdRun w.child with
  | none => exact ⟨[], by simp, by simp⟩
  | some e =>
    cases e with
    | exitError code => exact ⟨[], by simp, by simp⟩
    | other msg => exact ⟨[Action.stderr ("Error running importer: " ++ msg)], by simp, by simp⟩

theorem launch_fs (w : World) (fs : FS) (t : List Action) (appPath u tok : String) :
    (launch w fs t appPath u tok).fs = fs := by
  unfold launch
  simp only []
  cases cmdRun w.child with
  | none => rfl
  | some e => cases e <;> rfl

/-- Whenever `main` spawns a child it does so through the launch step, with the
two trimmed strings, and nothing before that step is a spawn. -/
theorem main_launches (fp : Filepath) (cfg : Config) (w : World) (p : String) (args : List String)
    (h : Action.spawn p args ∈ (main fp cfg w).trace) :
    ∃ fs t appPath,
      main fp cfg w = launch w fs t appPath (trimRight cfg.ServerURL paddingCutset)
        (trimRight cfg.SetupToken paddingCutset)
      ∧ ∀ q a, Action.spawn q a ∉ t := by
  unfold main at h ⊢
  simp only [] at h ⊢
  generalize (if (w.goos == "windows") = true then ".exe" else "") = ext at h ⊢
  by_cases hcfg : (hasPrefix (trimRight cfg.ServerURL paddingCutset) placeholderPrefix
      || trimRight cfg.ServerURL paddingCutset == "") = true
  · rw [if_pos hcfg] at h
    simp at h
  · rw [if_neg hcfg] at h ⊢
    cases hd : getAppDataDir fp w with
    | error e => simp [hd] at h
    | ok appDir =>
      simp only [hd] at h ⊢
      cases hm : mkdirAll w w.fs appDir with
      | error e => simp [hm] at h
      | ok fs1 =>
        simp only [hm] at h ⊢
        by_cases hp : fs1.present (fp.Join [appDir, "immich-importer" ++ ext]) = true
        · rw [if_pos hp]
          exact ⟨_, _, _, rfl, by simp⟩
        · rw [if_neg hp] at h ⊢
          unfold downloadAndLaunch at h ⊢
          simp only [] at h ⊢
          have hns := downloadFile_no_spawn fp w.goos w.dl fs1
            (fp.Join [appDir, "immich-importer" ++ ext])
            (downloadURL (w.goos ++ "-" ++ w.goarch) ext)
          cases he : (downloadFile fp w.goos w.dl fs1
              (fp.Join [appDir, "immich-importer" ++ ext])
              (downloadURL (w.goos ++ "-" ++ w.goarch) ext)).err with
          | some e =>
            simp only [he] at h
            simp at h
            exact absurd h (hns _ _)
          | none =>
            simp only [he]
            by_cases hw : (w.goos != "windows") = true
            · rw [if_pos hw]
              cases w.chmodErr with
              | some e => exact ⟨_, _, _, rfl, by simpa using hns⟩
              | none => exact ⟨_, _, _, rfl, by simpa using hns⟩
            · rw [if_neg hw]
              exact ⟨_, _, _, rfl, by simpa using hns⟩

/-- C4: once `main` has spawned the importer, a child that exits with code `c`
makes `main` end with exit code `c` (0 included), and a child that could not be
started makes it end with exit code 1. -/
theorem exit_code_propagation (fp : Filepath) (cfg : Config) (w : World)
    (p : String) (args : List String)
    (hspawn : Action.spawn p args ∈ (main fp cfg w).trace) :
    (∀ c : Nat, w.child = .exited c → (main fp cfg w).exitCode = (c : Int))
    ∧ (∀ msg, w.child = .notStarted msg → (main fp cfg w).exitCode = 1) := by
  obtain ⟨fs, t, appPath, hmain, _⟩ := main_launches fp cfg w p args hspawn
  rw [hmain]
  exact launch_exitCode w fs t appPath _ _

theorem exit_code_propagation_witness :
    (main slashPaths { ServerURL := patchedURL, SetupToken := SetupToken } cachedLinux).exitCode = 42
    ∧ (main slashPaths { ServerURL := patchedURL, SetupToken := SetupToken }
        freshLinux).exitCode = 0
    ∧ (main slashPaths { ServerURL := patchedURL, SetupToken := SetupToken }
        { cachedLinux with child := .notStarted "permission denied" }).exitCode = 1 :=
  ⟨(exit_code_propagation slashPaths { ServerURL := patchedURL, SetupToken := SetupToken }
      cachedLinux "/home/u/.config/immich-importer/immich-importer"
      ["--server", "https://immich.example.com", "--token", "__IMMICH_SETUP_TOKEN_PLACEHOLDER"]
      (by decide)).1 42 rfl,
   (exit_code_propagation slashPaths { ServerURL := patchedURL, SetupToken := SetupToken }
      freshLinux "/home/u/.config/immich-importer/immich-importer"
      ["--server", "https://immich.example.com", "--token", "__IMMICH_SETUP_TOKEN_PLACEHOLDER"]
      (by decide)).1 0 rfl,
   (exit_code_propagation slashPaths { ServerURL := patchedURL, SetupToken := SetupToken }
      { cachedLinux with child := .notStarted "permission denied" }
      "/home/u/.config/immich-importer/immich-importer"
      ["--server", "https://immich.example.com", "--token", "__IMMICH_SETUP_TOKEN_PLACEHOLDER"]
      (by decide)).2 "permission denied" rfl⟩

/-! ### Trimming -/

theorem rdropWhile_append_padding (p : Char → Bool) (l : List Char)
    (hl : ∀ c, l.getLast? = some c → p c = false) :
    ∀ pad : List Char, (∀ c ∈ pad, p c = true) → (l ++ pad).rdropWhile p = l := by
  intro pad
  induction pad using List.reverseRecOn with
  | nil =>
    intro _
    rw [List.append_nil, List.rdropWhile_eq_self_iff]
    intro hne
    have := hl (l.getLast hne) (List.getLast?_eq_getLast l hne)
    simp [this]
  | append_singleton pad x ih =>
    intro hpad
    have hx : p x = true := hpad x (by simp)
    rw [← List.append_assoc, List.rdropWhile_concat_pos _ _ _ hx]
    exact ih (fun c hc => hpad c (by simp [hc]))

theorem trimRight_append_padding (u pad cutset : String)
    (hu : endsIn u cutset = false)
    (hpad : ∀ c ∈ pad.data, c ∈ cutset.data) :
    trimRight (u ++ pad) cutset = u := by
  unfold trimRight
  have h := rdropWhile_append_padding (fun c => cutset.data.contains c) u.data
    (by
      intro c hc
      unfold endsIn at hu
      rw [hc] at hu
      exact hu)
    pad.data (by
      intro c hc
      simpa using hpad c hc)
  rw [String.data_append, h]

/-- C7, counterexample: a setup token that ends in an underscore, padded with
underscores to the width of `SetupToken`, loses its last character in `main`,
and the child is launched with the shortened token. -/
theorem trim_eats_token_tail :
    tokenWithTail ≠ ""
    ∧ hasPrefix tokenWithTail placeholderPrefix = false
    ∧ patchedTokenWithTail = tokenWithTail ++ repeatChar '_' 113
    ∧ (∀ c ∈ (repeatChar '_' 113).data, c ∈ paddingCutset.data)
    ∧ patchedTokenWithTail.length = SetupToken.length
    ∧ trimRight patchedTokenWithTail paddingCutset ≠ tokenWithTail
    ∧ Action.spawn "/home/u/.config/immich-importer/immich-importer"
        ["--server", "https://immich.example.com", "--token", "c2V0dXAtdG9rZW4"]
        ∈ (main slashPaths { ServerURL := patchedURL, SetupToken := patchedTokenWithTail }
            cachedLinux).trace := by
  refine ⟨by decide, rfl, rfl, ?_, rfl, by decide, by decide⟩
  intro c hc
  have : c = '_' := by
    simp only [repeatChar] at hc
    exact List.eq_of_mem_replicate hc
  subst this
  decide

/-- C7, amended: for every server URL `u` and setup token `t` that do not end
in NUL, underscore or space, and every padding made only of these characters,
the trimming of `main` gives back exactly `u` and `t`; every child `main`
spawns gets the argument list `--server u --token t`; and when `u` is not empty
and does not start with the placeholder prefix, `main` does spawn such a child
as soon as the application directory is there and the importer is cached or
its download succeeds. -/
theorem patched_values_reach_child (fp : Filepath) (w : World) (u t padU padT : String)
    (hu : endsIn u paddingCutset = false) (ht : endsIn t paddingCutset = false)
    (hpadU : ∀ c ∈ padU.data, c ∈ paddingCutset.data)
    (hpadT : ∀ c ∈ padT.data, c ∈ paddingCutset.data) :
    trimRight (u ++ padU) paddingCutset = u
    ∧ trimRight (t ++ padT) paddingCutset = t
    ∧ (∀ p args, Action.spawn p args
          ∈ (main fp { ServerURL := u ++ padU, SetupToken := t ++ padT } w).trace →
        args = ["--server", u, "--token", t])
    ∧ (u ≠ "" → hasPrefix u placeholderPrefix = false →
        ∀ appDir fs1, getAppDataDir fp w = .ok appDir → mkdirAll w w.fs appDir = .ok fs1 →
          (fs1.present (fp.Join [appDir, "immich-importer"
              ++ if w.goos == "windows" then ".exe" else ""]) = true
            ∨ (downloadFile fp w.goos w.dl fs1
                (fp.Join [appDir, "immich-importer" ++ if w.goos == "windows" then ".exe" else ""])
                (downloadURL (w.goos ++ "-" ++ w.goarch)
                  (if w.goos == "windows" then ".exe" else ""))).err = none) →
          Action.spawn (fp.Join [appDir, "immich-importer"
              ++ if w.goos == "windows" then ".exe" else ""])
            ["--server", u, "--token", t]
            ∈ (main fp { ServerURL := u ++ padU, SetupToken := t ++ padT } w).trace) := by
  have hU := trimRight_append_padding u padU paddingCutset hu hpadU
  have hT := trimRight_append_padding t padT paddingCutset ht hpadT
  refine ⟨hU, hT, ?_, ?_⟩
  · intro p args hspawn
    obtain ⟨fs, tr, appPath, hmain, hno⟩ := main_launches fp _ w p args hspawn
    obtain ⟨rest, htrace, hrest⟩ := launch_trace w fs tr appPath
      (trimRight (u ++ padU) paddingCutset) (trimRight (t ++ padT) paddingCutset)
    rw [hmain, htrace] at hspawn
    simp only [List.mem_append, List.mem_cons, List.mem_singleton, List.not_mem_nil,
      or_false] at hspawn
    rcases hspawn with (h | h) | h
    · exact absurd h (hno p args)
    · rcases h with h | h | h | h
      · cases h
      · cases h
      · cases h
      · cases h
        rw [hU, hT]
    · exact absurd h (hrest p args)
  · intro hne hpre appDir fs1 hd hm hready
    unfold main
    simp only [hU, hT, hd, hm]
    have hcfg : ¬ ((hasPrefix u placeholderPrefix || u == "") = true) := by
      simp [hpre, hne]
    rw [if_neg hcfg]
    by_cases hp : fs1.present (fp.Join [appDir, "immich-importer"
        ++ if w.goos == "windows" then ".exe" else ""]) = true
    · rw [if_pos hp]
      obtain ⟨rest, htrace, _⟩ := launch_trace w fs1
        ([Action.stdout "Immich Google Photos Importer - Bootstrap",
            Action.stdout "=========================================="]
          ++ [Action.stdout ("Server: " ++ u), Action.stdout ""]
          ++ [Action.mkdirAll appDir, Action.stat (fp.Join [appDir, "immich-importer"
              ++ if w.goos == "windows" then ".exe" else ""])]
          ++ [Action.stdout "Found existing importer, checking for updates..."])
        (fp.Join [appDir, "immich-importer" ++ if w.goos == "windows" then ".exe" else ""]) u t
      rw [htrace]
      simp
    · rw [if_neg hp]
      have herr := hready.resolve_left hp
      unfold downloadAndLaunch
      simp only [herr]
      by_cases hw : (w.goos != "windows") = true
      · rw [if_pos hw]
        cases w.chmodErr with
        | some e =>
          obtain ⟨rest, htrace, _⟩ := launch_trace w
            (downloadFile fp w.goos w.dl fs1
              (fp.Join [appDir, "immich-importer" ++ if w.goos == "windows" then ".exe" else ""])
              (downloadURL (w.goos ++ "-" ++ w.goarch)
                (if w.goos == "windows" then ".exe" else ""))).fs
            _ (fp.Join [appDir, "immich-importer"
              ++ if w.goos == "windows" then ".exe" else ""]) u t
          simp only []
          rw [htrace]
          simp
        | none =>
          obtain ⟨rest, htrace, _⟩ := launch_trace w
            (chmod (downloadFile fp w.goos w.dl fs1
              (fp.Join [appDir, "immich-importer" ++ if w.goos == "windows" then ".exe" else ""])
              (downloadURL (w.goos ++ "-" ++ w.goarch)
                (if w.goos == "windows" then ".exe" else ""))).fs
              (fp.Join [appDir, "immich-importer"
                ++ if w.goos == "windows" then ".exe" else ""]) 0o755)
            _ (fp.Join [appDir, "immich-importer"
              ++ if w.goos == "windows" then ".exe" else ""]) u t
          simp only []
          rw [htrace]
          simp
      · rw [if_neg hw]
        obtain ⟨rest, htrace, _⟩ := launch_trace w
          (downloadFile fp w.goos w.dl fs1
            (fp.Join [appDir, "immich-importer" ++ if w.goos == "windows" then ".exe" else ""])
            (downloadURL (w.goos ++ "-" ++ w.goarch)
              (if w.goos == "windows" then ".exe" else ""))).fs
          _ (fp.Join [appDir, "immich-importer"
            ++ if w.goos == "windows" then ".exe" else ""]) u t
        rw [htrace]
        simp

theorem repeatChar_padding (c : Char) (n : Nat) (cutset : String) (hc : c ∈ cutset.data) :
    ∀ x ∈ (repeatChar c n).data, x ∈ cutset.data := by
  intro x hx
  have : x = c := List.eq_of_mem_replicate hx
  rw [this]
  exact hc

theorem patched_values_reach_child_witness :
    trimRight patchedURL paddingCutset = "https://immich.example.com"
    ∧ trimRight patchedToken paddingCutset = "c2V0dXAtdG9rZW4"
    ∧ Action.spawn "/home/u/.config/immich-importer/immich-importer"
        ["--server", "https://immich.example.com", "--token", "c2V0dXAtdG9rZW4"]
        ∈ (main slashPaths { ServerURL := patchedURL, SetupToken := patchedToken }
            cachedLinux).trace :=
  have h := patched_values_reach_child slashPaths cachedLinux
    "https://immich.example.com" "c2V0dXAtdG9rZW4" (repeatChar '_' 102) (repeatChar '\x00' 114)
    rfl rfl
    (repeatChar_padding '_' 102 paddingCutset (by decide))
    (repeatChar_padding '\x00' 114 paddingCutset (by decide))
  ⟨h.1, h.2.1,
    h.2.2.2 (by decide) rfl "/home/u/.config/immich-importer" cachedLinux.fs rfl rfl
      (Or.inl rfl)⟩

/-! ### The cached importer -/

/-- C8: with a server URL that passes the configuration check, in a filesystem
where the application directory exists and holds a file at the importer path,
`main` makes no network request and takes no step of `downloadFile`, never calls
chmod, leaves the filesystem exactly as it was and launches the file at that
path with the two trimmed strings. -/
theorem cached_importer_reused (fp : Filepath) (cfg : Config) (w : World) (appDir : String)
    (hpre : hasPrefix (trimRight cfg.ServerURL paddingCutset) placeholderPrefix = false)
    (hne : trimRight cfg.ServerURL paddingCutset ≠ "")
    (hdir : getAppDataDir fp w = .ok appDir)
    (hisdir : w.fs.isDir appDir = true)
    (hfile : (w.fs.lookup (fp.Join [appDir, "immich-importer"
      ++ if w.goos == "windows" then ".exe" else ""])).isSome = true) :
    (∀ a ∈ (main fp cfg w).trace, a.isNetwork = false)
    ∧ (∀ a ∈ (main fp cfg w).trace, a.isDownloadStep = false)
    ∧ (∀ p mode, Action.chmod p mode ∉ (main fp cfg w).trace)
    ∧ (main fp cfg w).fs = w.fs
    ∧ Action.spawn (fp.Join [appDir, "immich-importer"
          ++ if w.goos == "windows" then ".exe" else ""])
        ["--server", trimRight cfg.ServerURL paddingCutset,
         "--token", trimRight cfg.SetupToken paddingCutset] ∈ (main fp cfg w).trace := by
  have hcfg : ¬ ((hasPrefix (trimRight cfg.ServerURL paddingCutset) placeholderPrefix
      || trimRight cfg.ServerURL paddingCutset == "") = true) := by
    simp [hpre, hne]
  have hmk : mkdirAll w w.fs appDir = .ok w.fs := by simp [mkdirAll, hisdir]
  have hpres : w.fs.present (fp.Join [appDir, "immich-importer"
      ++ if w.goos == "windows" then ".exe" else ""]) = true := by
    unfold FS.present
    rw [hfile]
    rfl
  have hmain : main fp cfg w = launch w w.fs
      ([Action.stdout "Immich Google Photos Importer - Bootstrap",
          Action.stdout "=========================================="]
        ++ [Action.stdout ("Server: " ++ trimRight cfg.ServerURL paddingCutset), Action.stdout ""]
        ++ [Action.mkdirAll appDir, Action.stat (fp.Join [appDir, "immich-importer"
            ++ if w.goos == "windows" then ".exe" else ""])]
        ++ [Action.stdout "Found existing importer, checking for updates..."])
      (fp.Join [appDir, "immich-importer" ++ if w.goos == "windows" then ".exe" else ""])
      (trimRight cfg.ServerURL paddingCutset) (trimRight cfg.SetupToken paddingCutset) := by
    unfold main
    simp only [hdir, hmk]
    rw [if_neg hcfg, if_pos hpres]
  rw [hmain]
  refine ⟨?_, ?_, ?_, launch_fs _ _ _ _ _ _, ?_⟩
  · intro a ha
    unfold launch at ha
    simp only [] at ha
    cases hc : cmdRun w.child with
    | none =>
      simp [hc] at ha
      rcases ha with h | h | h | h | h | h | h | h | h | h | h <;> (subst h; rfl)
    | some e =>
      cases e with
      | exitError code =>
        simp [hc] at ha
        rcases ha with h | h | h | h | h | h | h | h | h | h | h <;> (subst h; rfl)
      | other msg =>
        simp [hc] at ha
        rcases ha with h | h | h | h | h | h | h | h | h | h | h | h <;> (subst h; rfl)
  · intro a ha
    unfold launch at ha
    simp only [] at ha
    cases hc : cmdRun w.child with
    | none =>
      simp [hc] at ha
      rcases ha with h | h | h | h | h | h | h | h | h | h | h <;> (subst h; rfl)
    | some e =>
      cases e with
      | exitError code =>
        simp [hc] at ha
        rcases ha with h | h | h | h | h | h | h | h | h | h | h <;> (subst h; rfl)
      | other msg =>
        simp [hc] at ha
        rcases ha with h | h | h | h | h | h | h | h | h | h | h | h <;> (subst h; rfl)
  · intro p mode ha
    unfold launch at ha
    simp only [] at ha
    cases hc : cmdRun w.child with
    | none => simp [hc] at ha
    | some e => cases e <;> simp [hc] at ha
  · obtain ⟨rest, htrace, _⟩ := launch_trace w w.fs
      ([Action.stdout "Immich Google Photos Importer - Bootstrap",
          Action.stdout "=========================================="]
        ++ [Action.stdout ("Server: " ++ trimRight cfg.ServerURL paddingCutset), Action.stdout ""]
        ++ [Action.mkdirAll appDir, Action.stat (fp.Join [appDir, "immich-importer"
            ++ if w.goos == "windows" then ".exe" else ""])]
        ++ [Action.stdout "Found existing importer, checking for updates..."])
      (fp.Join [appDir, "immich-importer" ++ if w.goos == "windows" then ".exe" else ""])
      (trimRight cfg.ServerURL paddingCutset) (trimRight cfg.SetupToken paddingCutset)
    rw [htrace]
    simp

theorem cached_importer_reused_witness :
    (main slashPaths { ServerURL := patchedURL, SetupToken := patchedToken } cachedLinux).fs
        = cachedLinux.fs
    ∧ Action.spawn "/home/u/.config/immich-importer/immich-importer"
        ["--server", "https://immich.example.com", "--token", "c2V0dXAtdG9rZW4"]
        ∈ (main slashPaths { ServerURL := patchedURL, SetupToken := patchedToken }
            cachedLinux).trace :=
  have h := cached_importer_reused slashPaths
    { ServerURL := patchedURL, SetupToken := patchedToken } cachedLinux
    "/home/u/.config/immich-importer" rfl (by decide) rfl rfl rfl
  ⟨h.2.2.2.1, h.2.2.2.2⟩

/-! ### The destination of a failed download -/

theorem lookup_filter_self (p : String) (l : List (String × File)) :
    List.lookup p (l.filter (fun e => e.1 != p)) = none := by
  induction l with
  | nil => rfl
  | cons kv es ih =>
    obtain ⟨k, v⟩ := kv
    by_cases hk : k = p
    · simp [List.filter_cons, hk, ih]
    · have hpk : (p == k) = false := by simpa using fun h => hk h.symm
      simp [List.filter_cons, hk, List.lookup_cons, hpk, ih]

theorem lookup_filter_ne (p q : String) (h : q ≠ p) (l : List (String × File)) :
    List.lookup q (l.filter (fun e => e.1 != p)) = List.lookup q l := by
  induction l with
  | nil => rfl
  | cons kv es ih =>
    obtain ⟨k, v⟩ := kv
    by_cases hk : k = p
    · have hqk : (q == k) = false := by simpa [hk] using h
      simp [List.filter_cons, hk, List.lookup_cons, ih]
      rw [← hk, hqk]
    · by_cases hqk : q = k
      · simp [List.filter_cons, hk, List.lookup_cons, hqk]
      · have hqk2 : (q == k) = false := by simpa using hqk
        simp [List.filter_cons, hk, List.lookup_cons, hqk2, ih]

theorem FS.lookup_remove_self (fs : FS) (p : String) : (fs.remove p).lookup p = none := by
  simp [FS.remove, FS.lookup, lookup_filter_self]

theorem FS.lookup_remove_ne (fs : FS) (p q : String) (h : q ≠ p) :
    (fs.remove p).lookup q = fs.lookup q := by
  simp [FS.remove, FS.lookup, lookup_filter_ne p q h]

theorem FS.lookup_write_ne (fs : FS) (p q : String) (f : File) (h : q ≠ p) :
    (fs.write p f).lookup q = fs.lookup q := by
  have hqp : (q == p) = false := by simpa using h
  simp [FS.write, FS.lookup, List.lookup_cons, hqp, lookup_filter_ne p q h]

theorem createTemp_fresh (fp : Filepath) (s : DownloadScript) (fs : FS) (dir tmpPath : String)
    (fs0 : FS) (h : createTemp fp s fs dir = .ok (tmpPath, fs0)) :
    fs.lookup tmpPath = none
    ∧ fs0 = fs.write tmpPath { content := [], mode := 0o600 }
    ∧ ∃ r ∈ s.tempNames, tmpPath = fp.Join [dir, "download-" ++ r ++ ".tmp"] := by
  unfold createTemp at h
  cases hc : s.createTempErr with
  | some e => simp [hc] at h
  | none =>
    simp only [hc] at h
    cases hf : (s.tempNames.map (fun r => fp.Join [dir, "download-" ++ r ++ ".tmp"])).find?
        (fun p => !fs.present p) with
    | none => simp [hf] at h
    | some t =>
      simp only [hf] at h
      have hpair := Except.ok.inj h
      have h1 : t = tmpPath := congrArg Prod.fst hpair
      have h2 : fs.write t { content := [], mode := 0o600 } = fs0 := congrArg Prod.snd hpair
      subst h1
      have hp := List.find?_some hf
      have hmem := List.mem_of_find?_eq_some hf
      simp only [FS.present, Bool.not_eq_true', Bool.or_eq_false_iff] at hp
      refine ⟨?_, h2.symm, ?_⟩
      · cases hl : fs.lookup t with
        | none => rfl
        | some f => simp [hl] at hp
      · obtain ⟨r, hr, hrt⟩ := List.mem_map.mp hmem
        exact ⟨r, hr, hrt.symm⟩

/-- After the deferred clean-up, a filesystem that differs from the initial one
only at the temp path shows the initial file at the destination, provided the
temp file was removed or is not the destination itself. -/
theorem cleanup_restores (refused : Option String) (fs X : FS) (tmpPath destPath : String)
    (hfresh : fs.lookup tmpPath = none)
    (hagree : ∀ q, q ≠ tmpPath → X.lookup q = fs.lookup q)
    (hclean : refused = none ∨ destPath ≠ tmpPath) :
    (removeIgnoringError refused X tmpPath).lookup destPath = fs.lookup destPath := by
  cases refused with
  | none =>
    simp only [removeIgnoringError]
    by_cases hd : destPath = tmpPath
    · rw [hd, FS.lookup_remove_self, hfresh]
    · rw [FS.lookup_remove_ne _ _ _ hd, hagree _ hd]
  | some msg =>
    simp only [removeIgnoringError]
    rcases hclean with h | h
    · cases h
    · exact hagree _ h

/-- Once the fallback has removed the destination, the clean-up leaves it absent. -/
theorem cleanup_after_remove (refused : Option String) (X : FS) (tmpPath destPath : String) :
    (removeIgnoringError refused (X.remove destPath) tmpPath).lookup destPath = none := by
  cases refused with
  | none =>
    simp only [removeIgnoringError]
    by_cases hd : destPath = tmpPath
    · rw [hd, FS.lookup_remove_self]
    · rw [FS.lookup_remove_ne _ _ _ hd, FS.lookup_remove_self]
  | some msg =>
    simp only [removeIgnoringError]
    exact FS.lookup_remove_self _ _

theorem copyChunk_err (tmpPath : String) (cl : Int) (st : CopyState) (data : Bytes)
    (e : DownloadError) (h : (copyChunk tmpPath cl st data).1 = some e) : e.isMove = false := by
  unfold copyChunk at h
  simp only [] at h
  split_ifs at h <;> (try split at h) <;>
    first
      | (simp only [Option.some.injEq] at h; subst h; rfl)
      | (simp at h)

theorem copyReads_err (tmpPath : String) (cl : Int) (reads : List Bytes) :
    ∀ (st : CopyState) (e : DownloadError),
      (copyReads tmpPath cl st reads).1 = some e → e.isMove = false := by
  induction reads with
  | nil => intro st e h; simp [copyReads] at h
  | cons data rest ih =>
    intro st e h
    unfold copyReads at h
    rcases hcc : copyChunk tmpPath cl st data with ⟨e1, st1⟩
    rw [hcc] at h
    cases e1 with
    | some e1 =>
      simp only [Option.some.injEq] at h
      subst h
      exact copyChunk_err tmpPath cl st data e1 (by rw [hcc])
    | none => exact ih st1 e h

theorem copyLoop_err (tmpPath : String) (cl : Int) (writes : List WriteOutcome) (body : Body)
    (e : DownloadError) (h : (copyLoop tmpPath cl writes body).1 = some e) : e.isMove = false := by
  unfold copyLoop at h
  rcases hr : copyReads tmpPath cl (CopyState.init writes) body.reads with ⟨e0, st⟩
  rw [hr] at h
  cases e0 with
  | some e0 =>
    simp only [Option.some.injEq] at h
    subst h
    exact copyReads_err tmpPath cl body.reads _ e0 (by rw [hr])
  | none =>
    simp only [] at h
    rcases hc : copyChunk tmpPath cl st body.last with ⟨e1, st1⟩
    rw [hc] at h
    cases e1 with
    | some e1 =>
      simp only [Option.some.injEq] at h
      subst h
      exact copyChunk_err tmpPath cl st body.last e1 (by rw [hc])
    | none =>
      cases hl : body.lastErr with
      | none => simp [hl] at h
      | some msg =>
        simp only [hl, Option.some.injEq] at h
        subst h
        rfl

/-- C3: on windows, with the importer already at the destination and both
renames of the finished temp file refused, `downloadFile` returns an error
after its fallback has removed the destination: the file that was at `destPath`
before the call is gone, where the claim (and the comment `Atomically move temp
file to destination`) has it untouched. -/
theorem failed_rename_removes_destination :
    windowsCachedFS.lookup windowsImporter = some { content := [77, 90], mode := 0o666 }
    ∧ (downloadFile backslashPaths "windows" lockedTempScript windowsCachedFS windowsImporter
        (downloadURL "windows-amd64" ".exe")).err = some (.move "Access is denied.")
    ∧ (downloadFile backslashPaths "windows" lockedTempScript windowsCachedFS windowsImporter
        (downloadURL "windows-amd64" ".exe")).fs.lookup windowsImporter = none := by
  refine ⟨rfl, rfl, rfl⟩

/-- The same failure when `os.Remove(destPath)` is refused as well: the error is
returned and the old file is still at the destination. -/
theorem refused_remove_keeps_destination :
    (downloadFile backslashPaths "windows" lockedBothScript windowsCachedFS windowsImporter
        (downloadURL "windows-amd64" ".exe")).err = some (.move "Access is denied.")
    ∧ (downloadFile backslashPaths "windows" lockedBothScript windowsCachedFS windowsImporter
        (downloadURL "windows-amd64" ".exe")).fs.lookup windowsImporter
      = some { content := [77, 90], mode := 0o666 } := by
  refine ⟨rfl, rfl⟩

/-- What a failed `downloadFile` does to the destination, when the deferred
removal of the temp file succeeds or the destination is not itself a name the
temp file can get: the file at `destPath` is what it was before the call on
every operating system other than windows, on windows for every failure other
than that of the rename step, and also when the fallback's `os.Remove` was
refused; when the rename step fails on windows and the fallback's `os.Remove`
went through, no file is left at `destPath`. -/
theorem downloadFile_failure_frame (fp : Filepath) (goos : String) (s : DownloadScript) (fs : FS)
    (destPath url : String) (e : DownloadError)
    (herr : (downloadFile fp goos s fs destPath url).err = some e)
    (hclean : s.cleanupErr = none
      ∨ ∀ r ∈ s.tempNames, fp.Join [fp.Dir destPath, "download-" ++ r ++ ".tmp"] ≠ destPath) :
    ((goos ≠ "windows" ∨ e.isMove = false ∨ s.removeErr ≠ none) →
      (downloadFile fp goos s fs destPath url).fs.lookup destPath = fs.lookup destPath)
    ∧ (goos = "windows" → e.isMove = true → s.removeErr = none →
      (downloadFile fp goos s fs destPath url).fs.lookup destPath = none) := by
  revert e
  unfold downloadFile
  simp only []
  cases hct : createTemp fp s fs (fp.Dir destPath) with
  | error e0 =>
    intro e he
    simp only [Option.some.injEq] at he
    subst he
    exact ⟨fun _ => rfl, fun _ h => by simp [DownloadError.isMove] at h⟩
  | ok pr =>
    obtain ⟨tmpPath, fs0⟩ := pr
    obtain ⟨hfresh, hfs0, r, hr, htmp⟩ := createTemp_fresh fp s fs _ tmpPath fs0 hct
    have hcl : s.cleanupErr = none ∨ destPath ≠ tmpPath := by
      rcases hclean with h | h
      · exact Or.inl h
      · exact Or.inr (fun hd => h r hr (by rw [← htmp, hd]))
    have hag0 : ∀ q, q ≠ tmpPath → fs0.lookup q = fs.lookup q := by
      intro q hq
      rw [hfs0, FS.lookup_write_ne _ _ _ _ hq]
    have hagw : ∀ (f : File) q, q ≠ tmpPath → (fs0.write tmpPath f).lookup q = fs.lookup q := by
      intro f q hq
      rw [FS.lookup_write_ne _ _ _ _ hq, hag0 q hq]
    simp only []
    cases hget : clientGet s.redirects s.response with
    | error e0 =>
      intro e he
      simp only [deferred, Option.some.injEq] at he ⊢
      subst he
      exact ⟨fun _ => cleanup_restores _ fs fs0 tmpPath destPath hfresh hag0 hcl,
        fun _ h => by simp [DownloadError.isMove] at h⟩
    | ok resp =>
      simp only []
      by_cases hst : resp.statusCode = 200
      · simp only [hst, ne_eq, not_true_eq_false, if_false]
        rcases hcpl : copyLoop tmpPath resp.contentLength s.writes resp.body with ⟨e1, st⟩
        cases e1 with
        | some e1 =>
          intro e he
          simp only [deferred, Option.some.injEq] at he ⊢
          subst he
          have hnm : e1.isMove = false :=
            copyLoop_err tmpPath resp.contentLength s.writes resp.body e1 (by rw [hcpl])
          exact ⟨fun _ => cleanup_restores _ fs _ tmpPath destPath hfresh (hagw _) hcl,
            fun _ h => by rw [hnm] at h; exact absurd h (by decide)⟩
        | none =>
          simp only []
          cases hce : s.closeErr with
          | some e0 =>
            intro e he
            simp only [deferred, Option.some.injEq] at he ⊢
            subst he
            exact ⟨fun _ => cleanup_restores _ fs _ tmpPath destPath hfresh (hagw _) hcl,
              fun _ h => by simp [DownloadError.isMove] at h⟩
          | none =>
            simp only [deferred]
            unfold moveIntoPlace
            cases hr1 : s.renameErr with
            | none =>
              intro e he
              simp at he
            | some err =>
              simp only []
              by_cases hw : goos = "windows"
              · have hw2 : (goos == "windows") = true := by simpa using hw
                rw [if_pos hw2]
                cases hr2 : s.renameErr2 with
                | none =>
                  intro e he
                  simp at he
                | some err2 =>
                  intro e he
                  simp only [Option.some.injEq] at he ⊢
                  subst he
                  cases hre : s.removeErr with
                  | none =>
                    refine ⟨fun h => ?_, fun _ _ _ => ?_⟩
                    · rcases h with h | h | h
                      · exact absurd hw h
                      · simp [DownloadError.isMove] at h
                      · exact absurd rfl h
                    · simp only [removeIgnoringError]
                      exact cleanup_after_remove s.cleanupErr _ tmpPath destPath
                  | some msg =>
                    refine ⟨fun _ => ?_, fun _ _ h => by cases h⟩
                    simp only [removeIgnoringError]
                    exact cleanup_restores _ fs _ tmpPath destPath hfresh (hagw _) hcl
              · have hw2 : ¬ ((goos == "windows") = true) := by simpa using hw
                rw [if_neg hw2]
                intro e he
                simp only [Option.some.injEq] at he ⊢
                subst he
                exact ⟨fun _ => cleanup_restores _ fs _ tmpPath destPath hfresh (hagw _) hcl,
                  fun h _ => absurd h hw⟩
      · intro e he
        simp only [hst, ne_eq, not_false_eq_true, if_true, deferred, Option.some.injEq] at he ⊢
        subst he
        exact ⟨fun _ => cleanup_restores _ fs fs0 tmpPath destPath hfresh hag0 hcl,
          fun _ h => by simp [DownloadError.isMove] at h⟩

theorem downloadFile_failure_frame_witness :
    (downloadFile slashPaths "linux" lockedTempScript cachedLinux.fs
        "/home/u/.config/immich-importer/immich-importer"
        (downloadURL "linux-amd64" "")).fs.lookup
          "/home/u/.config/immich-importer/immich-importer"
      = some { content := [127, 69, 76, 70], mode := 0o755 } :=
  (downloadFile_failure_frame slashPaths "linux" lockedTempScript cachedLinux.fs
    "/home/u/.config/immich-importer/immich-importer" (downloadURL "linux-amd64" "")
    (.move "Access is denied.") rfl (Or.inl rfl)).1 (Or.inl (by decide))

/-! ### Progress lines -/

theorem copyChunk_counters (tmpPath : String) (cl : Int) (st : CopyState) (data : Bytes)
    (hw : st.writes = []) :
    (copyChunk tmpPath cl st data).1 = none
    ∧ (copyChunk tmpPath cl st data).2.writes = []
    ∧ (copyChunk tmpPath cl st data).2.written
        = (counterStep cl st.written st.lastPercent (data.take bufSize).length).1
    ∧ (copyChunk tmpPath cl st data).2.lastPercent
        = (counterStep cl st.written st.lastPercent (data.take bufSize).length).2.1
    ∧ progressLines (copyChunk tmpPath cl st data).2.out
        = progressLines st.out
          ++ (counterStep cl st.written st.lastPercent (data.take bufSize).length).2.2 := by
  unfold copyChunk counterStep
  simp only [hw, List.head?_nil, List.tail_nil]
  split_ifs <;>
    simp [progressLines, List.filterMap_append, Action.percent?, hw]

theorem copyReads_counters (tmpPath : String) (cl : Int) (reads : List Bytes) :
    ∀ st : CopyState, st.writes = [] →
      (copyReads tmpPath cl st reads).1 = none
      ∧ (copyReads tmpPath cl st reads).2.writes = []
      ∧ progressLines (copyReads tmpPath cl st reads).2.out
          = progressLines st.out
            ++ counterRun cl st.written st.lastPercent
                (reads.map (fun d => (d.take bufSize).length)) := by
  induction reads with
  | nil => intro st hw; simp [copyReads, counterRun, hw]
  | cons data rest ih =>
    intro st hw
    obtain ⟨h1, h2, h3, h4, h5⟩ := copyChunk_counters tmpPath cl st data hw
    unfold copyReads
    rcases hcc : copyChunk tmpPath cl st data with ⟨e, st1⟩
    rw [hcc] at h1 h2 h3 h4 h5
    simp only [] at h1 h2 h3 h4 h5
    subst h1
    obtain ⟨i1, i2, i3⟩ := ih st1 h2
    simp only []
    refine ⟨i1, i2, ?_⟩
    rw [i3, h5, h3, h4, List.map_cons, counterRun, List.append_assoc]

theorem copyLoop_counters (tmpPath : String) (cl : Int) (reads : List Bytes) :
    (copyLoop tmpPath cl [] { reads := reads, last := [], lastErr := none }).1 = none
    ∧ progressLines (copyLoop tmpPath cl [] { reads := reads, last := [], lastErr := none }).2.out
        = counterRun cl 0 (-1) (reads.map (fun d => (d.take bufSize).length)) := by
  obtain ⟨h1, h2, h3⟩ := copyReads_counters tmpPath cl reads (CopyState.init []) rfl
  unfold copyLoop
  rcases hr : copyReads tmpPath cl (CopyState.init []) reads with ⟨e, st⟩
  rw [hr] at h1 h2 h3
  simp only [] at h1 h2 h3
  subst h1
  have hc : copyChunk tmpPath cl st [] = (none, st) := by
    simp [copyChunk]
  simp only [hc]
  refine ⟨trivial, ?_⟩
  rw [h3]
  simp [progressLines, CopyState.init]

theorem copyChunk_no_progress (tmpPath : String) (cl : Int) (hcl : cl ≤ 0) (st : CopyState)
    (data : Bytes) :
    progressLines (copyChunk tmpPath cl st data).2.out = progressLines st.out := by
  have hn : ¬ cl > 0 := by omega
  unfold copyChunk
  simp only [hn, if_false]
  split_ifs <;> (try split) <;>
    simp [progressLines, List.filterMap_append, Action.percent?]

theorem copyReads_no_progress (tmpPath : String) (cl : Int) (hcl : cl ≤ 0) (reads : List Bytes) :
    ∀ st : CopyState,
      progressLines (copyReads tmpPath cl st reads).2.out = progressLines st.out := by
  induction reads with
  | nil => intro st; simp [copyReads]
  | cons data rest ih =>
    intro st
    have hc := copyChunk_no_progress tmpPath cl hcl st data
    unfold copyReads
    rcases hcc : copyChunk tmpPath cl st data with ⟨e, st1⟩
    rw [hcc] at hc
    cases e with
    | some e => simpa using hc
    | none =>
      simp only []
      rw [ih st1]
      exact hc

/-- When the size is unknown (`contentLength ≤ 0`) the copy loop prints no
progress line, whatever the body and whatever the writes do. -/
theorem no_progress_without_length (tmpPath : String) (cl : Int) (hcl : cl ≤ 0)
    (writes : List WriteOutcome) (body : Body) :
    progressLines (copyLoop tmpPath cl writes body).2.out = [] := by
  have h1 := copyReads_no_progress tmpPath cl hcl body.reads (CopyState.init writes)
  unfold copyLoop
  rcases hr : copyReads tmpPath cl (CopyState.init writes) body.reads with ⟨e, st⟩
  rw [hr] at h1
  have h0 : progressLines (CopyState.init writes).out = [] := rfl
  rw [h0] at h1
  cases e with
  | some e => simpa using h1
  | none =>
    have h2 := copyChunk_no_progress tmpPath cl hcl st body.last
    simp only []
    rcases hc : copyChunk tmpPath cl st body.last with ⟨e1, st1⟩
    rw [hc] at h2
    simp only [] at h1 h2
    rw [h1] at h2
    cases e1 with
    | some e1 => simpa using h2
    | none =>
      cases hl : body.lastErr with
      | none => simpa [hl] using h2
      | some msg => simpa [hl] using h2

/-- C6: for a body of 1,048,576 bytes with that `Content-Length`, read in 32
chunks of 32 KiB, the copy loop runs to the end and prints exactly four
progress lines, for 40, 50, 90 and 100 percent; the lines for 10, 20, 30, 60,
70 and 80 percent are never printed. -/
theorem progress_lines_one_mebibyte (tmpPath : String) :
    (copyLoop tmpPath 1048576 [] (chunkedResponse 32 32768 1048576).body).1 = none
    ∧ progressLines (copyLoop tmpPath 1048576 [] (chunkedResponse 32 32768 1048576).body).2.out
        = [40, 50, 90, 100] := by
  have h := copyLoop_counters tmpPath 1048576 (List.replicate 32 (List.replicate 32768 0))
  have hsizes : (List.replicate 32 (List.replicate 32768 0)).map
      (fun d : Bytes => (d.take bufSize).length) = List.replicate 32 32768 := by
    rw [List.map_replicate, List.take_replicate, List.length_replicate]
    rfl
  rw [hsizes] at h
  have hrun : counterRun 1048576 0 (-1) (List.replicate 32 32768) = [40, 50, 90, 100] := by
    rfl
  rw [hrun] at h
  simp only [chunkedResponse]
  exact h

end Bootstrapper
